import Mathlib

/-!
Verification of the unified-auth-server core against its specification.

This file shallowly embeds the token lifecycle and access-policy code of the
repository (src/app/core/validators.py, src/app/core/jwt_handler.py,
src/app/core/token_store.py, src/app/core/hmac_signer.py,
src/app/core/workspace_admin.py and the route logic of
src/app/routes/auth.py) and proves or refutes the spec's claims about it.

Conventions of the embedding:
- Python strings are `String`; the relevant character classes are ASCII, and
  `Char.toLower`/`strLower` model `str.lower()` on them.
- Python `Tuple[bool, Optional[str]]` results are `Bool × Option String`.
- Machine-level time is an `Int` Unix timestamp; `timedelta(days=d)` is
  `d * 86400` seconds.
- The JWT library is modelled symbolically at its interface: a token is its
  payload together with the signing key and algorithm, and decoding succeeds
  exactly when key and algorithm match, the token is unexpired and the issuer
  claim (when demanded) agrees.  SHA-256 / HMAC-SHA256 and Python's `re` and
  `urllib.parse.urlparse` are external primitives and appear as function
  parameters of the definitions that call them.
-/

deriving instance DecidableEq for Except

namespace UnifiedAuth

/-! ## Email validators (src/app/core/validators.py) -/

/-- Character class `[a-zA-Z0-9._%+-]` of the local part of
`EMAIL_REGEX = r'^[a-zA-Z0-9._%+-]+@[a-zA-Z0-9.-]+\.[a-zA-Z]{2,}$'`. -/
def isLocalChar (c : Char) : Bool :=
  c.isAlpha || c.isDigit || c = '.' || c = '_' || c = '%' || c = '+' || c = '-'

/-- Character class `[a-zA-Z0-9.-]` of the host part of `EMAIL_REGEX`. -/
def isHostChar (c : Char) : Bool :=
  c.isAlpha || c.isDigit || c = '.' || c = '-'

/-- Python `str.lower()` on the ASCII range (structural, so that concrete
instances evaluate; the strings handled by the server are ASCII). -/
def strLower (s : String) : String :=
  ⟨s.data.map Char.toLower⟩

/-- Python `str.upper()` on the ASCII range. -/
def strUpper (s : String) : String :=
  ⟨s.data.map Char.toUpper⟩

/-- The sub-pattern `[a-zA-Z0-9.-]+\.[a-zA-Z]{2,}` applied to the characters
after the `'@'`: some split position `i` holds a literal `'.'` preceded by a
non-empty run of host characters and followed by at least two ASCII letters
reaching the end of the string. -/
def matchDomainChars (cs : List Char) : Bool :=
  (List.range cs.length).any fun i =>
    cs.getD i ' ' = '.' && decide (1 ≤ i) && (cs.take i).all isHostChar &&
      decide (2 ≤ cs.length - (i + 1)) && (cs.drop (i + 1)).all Char.isAlpha

/-- The full pattern of `EMAIL_REGEX` without the end-of-string subtlety of
`'$'`.  Because `'@'` is not a local character, a match forces the split at
the first `'@'` of the string, so the local part is `takeWhile (· ≠ '@')`. -/
def matchEmailCoreChars (cs : List Char) : Bool :=
  let locPart := cs.takeWhile fun c => c ≠ '@'
  match cs.dropWhile fun c => c ≠ '@' with
  | _ :: dom => !locPart.isEmpty && locPart.all isLocalChar && matchDomainChars dom
  | [] => false

/-- `is_valid_email`: `EMAIL_REGEX.match(email) is not None`.  Python's `'$'`
matches at the end of the string or just before a trailing `'\n'`, hence the
second disjunct.  (The guard `if not email` of the source is subsumed: the
empty string matches neither disjunct.) -/
def is_valid_email (email : String) : Bool :=
  matchEmailCoreChars email.data ||
    (email.data.getLast? == some '\n' && matchEmailCoreChars email.data.dropLast)

/-- `extract_domain`: for a valid email, `email.split('@')[1].lower()` — the
part after the (unique) `'@'`, lowercased; otherwise `""`. -/
def extract_domain (email : String) : String :=
  if is_valid_email email then
    ⟨((email.data.dropWhile fun c => c ≠ '@').drop 1).map Char.toLower⟩
  else ""

/-- The sub-pattern `\d{7}` with Python's `'$'` end-of-string subtlety, as in
`re.match(r'^\d{7}$', local_part)`.  `\d` is modelled by the ASCII digits;
the local part of a valid email is ASCII, so no generality is lost. -/
def matchSevenDigits (cs : List Char) : Bool :=
  (cs.length == 7 && cs.all Char.isDigit) ||
    (cs.getLast? == some '\n' &&
      (cs.dropLast.length == 7 && cs.dropLast.all Char.isDigit))

/-- `is_student_email`: a valid email whose local part
(`email.split('@')[0]`) matches `^\d{7}$`. -/
def is_student_email (email : String) : Bool :=
  if is_valid_email email then
    matchSevenDigits (email.data.takeWhile fun c => c ≠ '@')
  else false

/-- `validate_domain(email, allowed_domains)`. -/
def validate_domain (email : String) (allowed_domains : List String) :
    Bool × Option String :=
  let domain := extract_domain email
  if domain = "" then (false, some "Invalid email format")
  else
    let allowed_domains_lower := allowed_domains.map strLower
    if domain ∈ allowed_domains_lower then (true, none)
    else (false, some ("Domain '" ++ domain ++ "' is not in allowed domains: " ++
      String.intercalate ", " allowed_domains))

/-- `validate_student_access(email, student_allowed)`. -/
def validate_student_access (email : String) (student_allowed : Bool) :
    Bool × Option String :=
  if !student_allowed && is_student_email email then
    (false, some "Student accounts are not allowed for this project")
  else (true, none)

/-- `validate_admin_access(email, admin_emails)`: the empty list means no
restriction, otherwise the email must case-insensitively be in the list. -/
def validate_admin_access (email : String) (admin_emails : List String) :
    Bool × Option String :=
  if admin_emails = [] then (true, none)
  else
    let admin_emails_lower := admin_emails.map strLower
    if strLower email ∈ admin_emails_lower then (true, none)
    else (false, some "Access restricted to administrators only")

/-- `validate_group_membership(user_groups, required_groups, allowed_groups)`. -/
def validate_group_membership (user_groups required_groups allowed_groups : List String) :
    Bool × Option String :=
  let user_groups_lower := user_groups.map strLower
  let required_groups_lower := required_groups.map strLower
  let missing_groups := required_groups_lower.filter fun g => !user_groups_lower.contains g
  if required_groups ≠ [] ∧ missing_groups ≠ [] then
    (false, some ("User is not a member of required groups: " ++
      String.intercalate ", " missing_groups))
  else
    let allowed_groups_lower := allowed_groups.map strLower
    if allowed_groups ≠ [] ∧
        !user_groups_lower.any (fun g => allowed_groups_lower.contains g) then
      (false, some ("User is not a member of any allowed groups: " ++
        String.intercalate ", " allowed_groups))
    else (true, none)

/-- Python `s.rstrip('/')`: drop every trailing `'/'`. -/
def rstripSlash (s : String) : String :=
  ⟨(s.data.reverse.dropWhile fun c => c = '/').reverse⟩

/-- Python `needle.startswith`-style prefix test on character lists:
`listPrefixEq needle hay` holds when `needle` is an initial segment of `hay`. -/
def listPrefixEq : List Char → List Char → Bool
  | [], _ => true
  | _ :: _, [] => false
  | a :: as, b :: bs => a = b && listPrefixEq as bs

/-- Python `needle in hay` substring test. -/
def strContainsSub (hay needle : String) : Bool :=
  (List.range (hay.data.length + 1)).any fun i => listPrefixEq needle.data (hay.data.drop i)

/-- `WorkspaceAdminClient.check_org_unit_hierarchy(user_org_unit, allowed_org_unit)`
(src/app/core/workspace_admin.py): after stripping trailing slashes, exact
match or descendant (`user_path.startswith(allowed_path + '/')`). -/
def check_org_unit_hierarchy (user_org_unit allowed_org_unit : String) : Bool :=
  let user_path := rstripSlash user_org_unit
  let allowed_path := rstripSlash allowed_org_unit
  user_path == allowed_path || listPrefixEq (allowed_path ++ "/").data user_path.data

/-- `validate_org_unit_membership(user_org_unit, required_org_units, allowed_org_units)`. -/
def validate_org_unit_membership (user_org_unit : Option String)
    (required_org_units allowed_org_units : List String) : Bool × Option String :=
  match user_org_unit with
  | none =>
      if required_org_units ≠ [] ∨ allowed_org_units ≠ [] then
        (false, some "Unable to retrieve user's organizational unit")
      else (true, none)
  | some ou =>
      let user_org_unit_normalized := rstripSlash ou
      let missing_org_units := required_org_units.filter fun r =>
        !check_org_unit_hierarchy user_org_unit_normalized r
      if required_org_units ≠ [] ∧ missing_org_units ≠ [] then
        (false, some ("User is not a member of required organizational units: " ++
          String.intercalate ", " missing_org_units))
      else if allowed_org_units ≠ [] ∧
          !allowed_org_units.any (fun a => check_org_unit_hierarchy user_org_unit_normalized a) then
        (false, some ("User is not a member of any allowed organizational units: " ++
          String.intercalate ", " allowed_org_units))
      else (true, none)

/-- The project-policy slice read by `validate_user_access` through
`project_config.get(...)`; the field defaults are the `get` defaults. -/
structure ProjectConfig where
  allowed_domains : List String := []
  student_allowed : Bool := true
  admin_emails : List String := []
  required_groups : List String := []
  allowed_groups : List String := []
  required_org_units : List String := []
  allowed_org_units : List String := []
deriving DecidableEq

/-- The typed exceptions of src/app/core/errors.py raised by
`validate_user_access` (the two org-unit errors are imported there from the
errors module, whose shipped sources do not define them; they are modelled
from the spec's taxonomy §7 with the argument each raise site passes). -/
inductive AuthFailure where
  | invalidDomain (domain : String) (allowed_domains : List String)
  | studentNotAllowed (email : String)
  | adminOnly (email : String)
  | groupMembershipRequired (required_groups : List String)
  | noMatchingGroup (allowed_groups : List String)
  | orgUnitMembershipRequired (required_org_units : List String)
  | noMatchingOrgUnit (allowed_org_units : List String)
deriving DecidableEq

/-- Stage 4 of `validate_user_access`: runs only when `user_groups is not None`
and classifies a `validate_group_membership` failure by the substring test
`'required' in error_msg` on the failure message. -/
def groupStage (cfg : ProjectConfig) :
    Option (List String) → Except AuthFailure Unit
  | none => .ok ()
  | some gs =>
      let r := validate_group_membership gs cfg.required_groups cfg.allowed_groups
      if !r.1 then
        if strContainsSub (r.2.getD "") "required" then
          .error (.groupMembershipRequired cfg.required_groups)
        else .error (.noMatchingGroup cfg.allowed_groups)
      else .ok ()

/-- Stage 5 of `validate_user_access`: runs only when
`user_org_unit is not None`, classifying a failure like stage 4. -/
def orgUnitStage (cfg : ProjectConfig) :
    Option String → Except AuthFailure Unit
  | none => .ok ()
  | some ou =>
      let r := validate_org_unit_membership (some ou)
        cfg.required_org_units cfg.allowed_org_units
      if !r.1 then
        if strContainsSub (r.2.getD "") "required" then
          .error (.orgUnitMembershipRequired cfg.required_org_units)
        else .error (.noMatchingOrgUnit cfg.allowed_org_units)
      else .ok ()

/-- `validate_user_access(email, project_config, user_groups, user_org_unit)`:
the five validation stages in source order; the first failure is raised. -/
def validate_user_access (email : String) (cfg : ProjectConfig)
    (user_groups : Option (List String)) (user_org_unit : Option String) :
    Except AuthFailure (Bool × String) :=
  if !(validate_domain email cfg.allowed_domains).1 then
    .error (.invalidDomain (extract_domain email) cfg.allowed_domains)
  else if !(validate_student_access email cfg.student_allowed).1 then
    .error (.studentNotAllowed email)
  else if !(validate_admin_access email cfg.admin_emails).1 then
    .error (.adminOnly email)
  else do
    _ ← groupStage cfg user_groups
    _ ← orgUnitStage cfg user_org_unit
    return (true, "")

/-! ## JWT model (src/app/core/jwt_handler.py)

The PyJWT library is modelled symbolically at its interface boundary: a token
records the payload, the signing key and the algorithm; `jwt.decode` succeeds
exactly when the key and algorithm agree (i.e. the signature verifies), the
`exp` claim has not passed (when expiry is verified) and the `iss` claim
matches the demanded issuer. -/

/-- A JSON claim value (the claims used by the server are strings and
numbers; `iat`/`exp` datetimes are serialized to Unix timestamps). -/
inductive JVal where
  | s (v : String)
  | n (v : Int)
deriving DecidableEq

/-- The string content of a claim value, if it is a string. -/
def JVal.str? : JVal → Option String
  | .s v => some v
  | .n _ => none

/-- A JWT payload: a Python dict of claims. -/
abbrev Payload := List (String × JVal)

/-- Dict lookup `payload.get(k)`. -/
def lookupClaim (p : Payload) (k : String) : Option JVal :=
  (p.find? fun kv => kv.1 == k).map fun kv => kv.2

/-- Python `base.update(extra)`, up to lookup equivalence: a key found in
`extra` overrides `base` (the dicts built by the server have no duplicate
keys, and tokens are only ever queried by key). -/
def dictUpdate (base extra : Payload) : Payload :=
  extra ++ base

/-- A signed JWT, modelled symbolically. -/
structure JwtToken where
  payload : Payload
  key : String
  alg : String
deriving DecidableEq

/-- `jwt.encode(payload, secret_key, algorithm)`. -/
def jwt_encode (payload : Payload) (key alg : String) : JwtToken :=
  ⟨payload, key, alg⟩

/-- The two PyJWT failure modes surfaced by the handler:
`jwt.ExpiredSignatureError` and any other `jwt.InvalidTokenError`. -/
inductive JwtError where
  | invalid
  | expired
deriving DecidableEq

/-- `jwt.decode(token, key, algorithms, options={verify_exp}, issuer)`,
symbolically: signature/algorithm mismatch is `invalid`; then a present `exp`
at or before `now` is `expired` (PyJWT rejects when `exp <= now` at zero
leeway); then a demanded issuer must equal the `iss` claim (absent or
different is `invalid`). -/
def jwt_decode (tok : JwtToken) (key : String) (algs : List String)
    (verifyExp : Bool) (issuer : Option String) (now : Int) :
    Except JwtError Payload :=
  if tok.key ≠ key then .error .invalid
  else if !algs.contains tok.alg then .error .invalid
  else
    let isExpired :=
      verifyExp && match lookupClaim tok.payload "exp" with
        | some (.n e) => decide (e ≤ now)
        | _ => false
    if isExpired then .error .expired
    else
      match issuer with
      | some iss =>
          if lookupClaim tok.payload "iss" = some (.s iss) then .ok tok.payload
          else .error .invalid
      | none => .ok tok.payload

/-- `JWTHandler.create_token(email, name, project_id, expiry_days,
additional_claims)`: the legacy single-token issuer.  `expiry_days or
self.default_expiry_days` treats `None` and `0` as absent; the base payload
is then updated with `additional_claims` (so an additional claim overrides a
base claim of the same name). -/
def create_token (email name project_id : String) (expiry_days : Option Int)
    (additional_claims : Option Payload) (now default_expiry_days : Int)
    (key alg : String) : JwtToken :=
  let days := match expiry_days with
    | some d => if d ≠ 0 then d else default_expiry_days
    | none => default_expiry_days
  let expiry := now + days * 86400
  let base : Payload :=
    [("email", .s email), ("name", .s name), ("project_id", .s project_id),
     ("iat", .n now), ("exp", .n expiry), ("iss", .s "unified-auth-server"),
     ("sub", .s email)]
  let payload := match additional_claims with
    | some ac => dictUpdate base ac
    | none => base
  jwt_encode payload key alg

/-- `JWTHandler.verify_token(token)`: decode with the handler's key and
algorithm, expiry verified, issuer checked strictly. -/
def verify_token (tok : JwtToken) (key alg : String) (now : Int) :
    Except JwtError Payload :=
  jwt_decode tok key [alg] true (some "unified-auth-server") now

/-- Modelled from the spec: `JWTHandler.create_access_token` is called from
src/app/routes/auth.py but its definition is not among the shipped sources of
src/app/core/jwt_handler.py.  Per spec §4.3 (`issue_access_token(email, name,
project_id, role?)`, fixed 3600-second TTL, role encoded only if present) and
§3 (claim set `sub=email, email, name, project_id, role?, iat, exp,
iss="unified-auth-server"`). -/
def create_access_token (email name project_id : String) (role : Option String)
    (now : Int) (key alg : String) : JwtToken :=
  let base : Payload :=
    [("sub", .s email), ("email", .s email), ("name", .s name),
     ("project_id", .s project_id), ("iat", .n now), ("exp", .n (now + 3600)),
     ("iss", .s "unified-auth-server")]
  let payload := match role with
    | some r => base ++ [("role", .s r)]
    | none => base
  jwt_encode payload key alg

/-- Modelled from the spec: `JWTHandler.create_refresh_token` is called from
src/app/routes/auth.py but not defined among the shipped sources.  Per spec
§3 (claim set `sub=email, email, project_id, jti, iat, exp` — no name, no
role) and §4.3 (`issue_refresh_token(email, project_id, ttl_days)` with a
fresh unique `jti`; the caller-supplied `jti` argument stands for the
cryptographically random identifier). -/
def create_refresh_token (email project_id : String) (expiry_days : Int)
    (jti : String) (now : Int) (key alg : String) : JwtToken :=
  jwt_encode
    [("sub", .s email), ("email", .s email), ("project_id", .s project_id),
     ("jti", .s jti), ("iat", .n now), ("exp", .n (now + expiry_days * 86400))]
    key alg

/-- Modelled from the spec: `JWTHandler.verify_refresh_token` is called from
src/app/routes/auth.py but not defined among the shipped sources.  Per spec
§4.3: same failure modes as access-token verification; the refresh claim set
carries no `iss`, so no issuer is demanded. -/
def verify_refresh_token (tok : JwtToken) (key alg : String) (now : Int) :
    Except JwtError Payload :=
  jwt_decode tok key [alg] true none now

/-! ## Used-refresh-token store (src/app/core/token_store.py) -/

/-- The record stored per consumed `jti`; `used_at` is the timestamp. -/
structure UsedTokenRecord where
  email : Option String
  project_id : Option String
  used_at : Int
  ip_address : Option String
deriving DecidableEq

/-- The `TokenStore._used_tokens` dict.  Keys are `Option String` because the
route passes `payload.get("jti")`, which may be `None`. -/
abbrev TokenStoreState := List (Option String × UsedTokenRecord)

/-- `TokenStore.is_token_used(jti)`: key-presence test. -/
def is_token_used (st : TokenStoreState) (jti : Option String) : Bool :=
  st.any fun kv => kv.1 == jti

/-- `TokenStore.mark_token_as_used(jti, email, project_id, ip_address)`:
dict insertion (cons is lookup-equivalent to overwrite, and only presence of
the key is ever queried). -/
def mark_token_as_used (st : TokenStoreState) (jti : Option String)
    (email project_id : Option String) (now : Int) (ip : Option String) :
    TokenStoreState :=
  (jti, ⟨email, project_id, now, ip⟩) :: st

/-! ## Refresh endpoint (src/app/routes/auth.py, refresh_token_endpoint) -/

/-- The failure responses of the refresh endpoint: `REFRESH_TOKEN_REUSED`,
`REFRESH_TOKEN_EXPIRED`, the 400 "Project ID mismatch" and the `AUTH_005`
catch-all for any other verification failure. -/
inductive RefreshFailure where
  | refreshTokenReused
  | refreshTokenExpired
  | projectIdMismatch
  | cannotRefresh
deriving DecidableEq

/-- The request body `RefreshTokenRequest`. -/
structure RefreshRequest where
  refresh_token : JwtToken
  project_id : Option String
deriving DecidableEq

/-- The success response `TokenRefreshResponse`. -/
structure RefreshResult where
  access_token : JwtToken
  refresh_token : JwtToken
  token_type : String
  expires_in : Int
deriving DecidableEq

/-- `refresh_token_endpoint(request, body)` over the token-store state:
verify the refresh token, check the requested project id against the token's
(`if project_id and project_id != token_project_id`), reject an already-used
`jti` with `REFRESH_TOKEN_REUSED`, otherwise mark the `jti` used and issue a
fresh access/refresh pair (the new refresh token carrying the fresh `jti`).
`freshJti` stands for the random `jti` generated for the new refresh token;
`refresh_expiry_days` is `project_config.get('refresh_token_expiry_days', 30)`. -/
def refresh_token_endpoint (req : RefreshRequest) (st : TokenStoreState)
    (now : Int) (key alg : String) (freshJti : String)
    (refresh_expiry_days : Int) (ip : Option String) :
    Except RefreshFailure RefreshResult × TokenStoreState :=
  match verify_refresh_token req.refresh_token key alg now with
  | .error .expired => (.error .refreshTokenExpired, st)
  | .error .invalid => (.error .cannotRefresh, st)
  | .ok payload =>
      let jti := (lookupClaim payload "jti").bind JVal.str?
      let email := (lookupClaim payload "email").bind JVal.str?
      let token_project_id := (lookupClaim payload "project_id").bind JVal.str?
      let mismatch : Bool := match req.project_id with
        | some p => !(p == "") && !(some p == token_project_id)
        | none => false
      if mismatch then (.error .projectIdMismatch, st)
      else if is_token_used st jti then (.error .refreshTokenReused, st)
      else
        let st' := mark_token_as_used st jti email token_project_id now ip
        let project_id := token_project_id.getD ""
        let new_access_token :=
          create_access_token (email.getD "") "" project_id none now key alg
        let new_refresh_token :=
          create_refresh_token (email.getD "") project_id refresh_expiry_days
            freshJti now key alg
        (.ok ⟨new_access_token, new_refresh_token, "Bearer", 3600⟩, st')

/-! ## Role resolution (src/app/routes/auth.py, callback lines 188-234)

Each role rule is a config dict; absent dict keys are `none`.  Python's
`re.match(pattern, email)` (match anchored at the start of the string) is an
external primitive and is passed in as `reMatchStart pattern email`, where
`none` models a `re.error` (invalid pattern) and `some b` the match outcome. -/

/-- A `role_rules` entry as read by the callback: `rule.get('priority')`,
`rule.get('condition_type')`, `rule.get('role')`, `rule.get('group_email')`,
`rule.get('email_pattern')`, `rule.get('email_list', [])`. -/
structure RoleRule where
  priority : Option Int
  condition_type : Option String
  role : Option String
  group_email : Option String
  email_pattern : Option String
  email_list : List String
deriving DecidableEq

/-- The sort key `r.get('priority', 999)`. -/
def sortKey (r : RoleRule) : Int :=
  r.priority.getD 999

/-- Stable insertion of a rule into an already-sorted list: the inserted rule
goes before the first rule with a key not below its own, so a rule earlier in
the original list precedes later rules of equal priority. -/
def insertRule (r : RoleRule) : List RoleRule → List RoleRule
  | [] => [r]
  | x :: xs =>
      if sortKey x < sortKey r then x :: insertRule r xs
      else r :: x :: xs

/-- `sorted(role_rules, key=lambda r: r.get('priority', 999))`: Python's sort
is stable and ascending; any stable ascending sort computes the same list, so
insertion sort stands in for Timsort. -/
def sortRules (rules : List RoleRule) : List RoleRule :=
  rules.foldr insertRule []

/-- The per-rule condition evaluation of the callback's loop body (the
`matched` flag).  `if group_email and user_groups:` and `if pattern:` are
Python truthiness tests, so an empty group email, an empty or absent group
list, and an empty pattern leave `matched` false; a `re.error` (modelled by
`reMatchStart p email = none`) is caught and leaves `matched` false. -/
def ruleMatches (reMatchStart : String → String → Option Bool) (email : String)
    (user_groups : Option (List String)) (r : RoleRule) : Bool :=
  if r.condition_type == some "default" then true
  else if r.condition_type == some "group_membership" then
    match r.group_email, user_groups with
    | some g, some gs =>
        !(g == "") && !gs.isEmpty && (gs.map strLower).contains (strLower g)
    | _, _ => false
  else if r.condition_type == some "email_pattern" then
    match r.email_pattern with
    | some p => !(p == "") && (reMatchStart p email).getD false
    | none => false
  else if r.condition_type == some "email_list" then
    (r.email_list.map strLower).contains (strLower email)
  else false

/-- A rule "fires" when it is not skipped by
`if not condition_type or not role: continue` and its condition matches. -/
def ruleFires (reMatchStart : String → String → Option Bool) (email : String)
    (user_groups : Option (List String)) (r : RoleRule) : Bool :=
  match r.condition_type, r.role with
  | some ct, some role =>
      !(ct == "") && !(role == "") && ruleMatches reMatchStart email user_groups r
  | _, _ => false

/-- The callback's `for rule in sorted_rules` loop: return the role of the
first rule that fires, skipping rules with missing/empty condition or role. -/
def resolveLoop (reMatchStart : String → String → Option Bool) (email : String)
    (user_groups : Option (List String)) : List RoleRule → Option String
  | [] => none
  | r :: rest =>
      if ruleFires reMatchStart email user_groups r then r.role
      else resolveLoop reMatchStart email user_groups rest

/-- Role resolution of the callback: sort by priority, first match wins, no
match (or an empty rule list) leaves the role absent. -/
def resolve_role (reMatchStart : String → String → Option Bool) (email : String)
    (user_groups : Option (List String)) (rules : List RoleRule) : Option String :=
  resolveLoop reMatchStart email user_groups (sortRules rules)

/-! ## HMAC request signing (src/app/core/hmac_signer.py)

`hashlib.sha256(...).hexdigest()` and `hmac.new(key, msg,
sha256).hexdigest()` are cryptographic primitives and appear as the function
parameters `sha256_hex` and `hmac_sha256_hex key msg`. -/

/-- A JSON scalar value of a request body (the canonicalization at stake acts
on the object level; scalar leaves cover the claims under proof). -/
inductive JsonVal where
  | jnull
  | jb (b : Bool)
  | jn (n : Int)
  | js (s : String)
deriving DecidableEq

/-- A request body: a Python dict of JSON values. -/
abbrev JsonBody := List (String × JsonVal)

/-- Dict lookup on a request body. -/
def bodyLookup (body : JsonBody) (k : String) : Option JsonVal :=
  (body.find? fun kv => kv.1 == k).map fun kv => kv.2

/-- JSON string escaping of `json.dumps` (quote, backslash and the common
control characters; other characters serialize as themselves). -/
def escChar (c : Char) : String :=
  if c = '"' then "\\\""
  else if c = '\\' then "\\\\"
  else if c = '\n' then "\\n"
  else if c = '\r' then "\\r"
  else if c = '\t' then "\\t"
  else String.singleton c

/-- Escape a whole string. -/
def escStr (s : String) : String :=
  String.join (s.data.map escChar)

/-- Serialization of a scalar JSON value as `json.dumps` renders it. -/
def dumpVal : JsonVal → String
  | .jnull => "null"
  | .jb true => "true"
  | .jb false => "false"
  | .jn n => toString n
  | .js s => "\"" ++ escStr s ++ "\""

/-- Stable insertion by key into an already key-sorted body. -/
def insertPair (kv : String × JsonVal) : JsonBody → JsonBody
  | [] => [kv]
  | x :: xs =>
      if x.1 < kv.1 then x :: insertPair kv xs
      else kv :: x :: xs

/-- Ascending stable sort of a body by its keys, as `sort_keys=True` orders
the serialized object. -/
def sortBodyKeys (body : JsonBody) : JsonBody :=
  body.foldr insertPair []

/-- `json.dumps(body, sort_keys=True, separators=(',', ':'))`: keys sorted,
no whitespace, `"key":value` pairs joined by commas inside braces. -/
def json_dumps_sorted (body : JsonBody) : String :=
  "\x7b" ++
    String.intercalate ","
      ((sortBodyKeys body).map fun kv => "\"" ++ escStr kv.1 ++ "\":" ++ dumpVal kv.2) ++
  "\x7d"

/-- `HMACSignatureGenerator.generate_signature(client_secret, timestamp,
method, path, body)`: HMAC-SHA256 over
`"timestamp\nMETHOD\npath\nbody_hash"` with the method uppercased and
`body_hash` the SHA-256 hex digest of the canonical JSON body. -/
def generate_signature (sha256_hex : String → String)
    (hmac_sha256_hex : String → String → String)
    (client_secret timestamp method path : String) (body : JsonBody) : String :=
  let body_json := json_dumps_sorted body
  let body_hash := sha256_hex body_json
  let signature_string :=
    timestamp ++ "\n" ++ strUpper method ++ "\n" ++ path ++ "\n" ++ body_hash
  hmac_sha256_hex client_secret signature_string

/-- `HMACSignatureGenerator.create_signed_headers(client_id, client_secret,
timestamp, method, path, body)`. -/
def create_signed_headers (sha256_hex : String → String)
    (hmac_sha256_hex : String → String → String)
    (client_id client_secret timestamp method path : String) (body : JsonBody) :
    List (String × String) :=
  let signature :=
    generate_signature sha256_hex hmac_sha256_hex client_secret timestamp
      method path body
  [("X-Client-ID", client_id), ("X-Signature", signature),
   ("X-Timestamp", timestamp), ("Content-Type", "application/json")]

/-- Header lookup. -/
def headerLookup (hs : List (String × String)) (k : String) : Option String :=
  (hs.find? fun kv => kv.1 == k).map fun kv => kv.2

/-! ## Redirect-URI validation (src/app/core/validators.py, validate_redirect_uri)

`urllib.parse.urlparse` is an external primitive; a parse result is the
triple of components the validator reads, and the parser is a function
parameter (`urlparse` lowercases the scheme itself; the validator lowercases
again, so nothing is assumed about the parameter's case behaviour). -/

/-- The components of `urlparse` read by the validator. -/
structure ParsedUrl where
  scheme : String
  netloc : String
  path : String

/-- The per-entry body of the `for allowed_uri in allowed_uris` loop: an
invalid allowed entry is skipped; then the `scheme://netloc` bases must agree
and the path must match exactly, as a subdirectory of the allowed path, or
vacuously when the allowed entry sits at the host root. -/
def entryAllows (parse : String → ParsedUrl) (redirect_base redirect_path : String)
    (allowed_uri : String) : Bool :=
  let parsed_allowed := parse allowed_uri
  if parsed_allowed.scheme = "" ∨ parsed_allowed.netloc = "" then false
  else
    let allowed_base := strLower parsed_allowed.scheme ++ "://" ++ strLower parsed_allowed.netloc
    let allowed_path := rstripSlash parsed_allowed.path
    if redirect_base ≠ allowed_base then false
    else if redirect_path = allowed_path then true
    else if allowed_path ≠ "" ∧ listPrefixEq (allowed_path ++ "/").data redirect_path.data then
      true
    else if allowed_path = "" ∨ allowed_path = "/" then true
    else false

/-- `validate_redirect_uri(redirect_uri, allowed_uris)`. -/
def validate_redirect_uri (parse : String → ParsedUrl) (redirect_uri : String)
    (allowed_uris : List String) : Bool :=
  let parsed_redirect := parse redirect_uri
  if parsed_redirect.scheme = "" ∨ parsed_redirect.netloc = "" then false
  else
    allowed_uris.any
      (entryAllows parse
        (strLower parsed_redirect.scheme ++ "://" ++ strLower parsed_redirect.netloc)
        (rstripSlash parsed_redirect.path))

/-! ## Spec-side predicates (for comparison with the source definitions) -/

/-- The spec's wording for the student heuristic, by itself: the local part
of the address — the substring before the first `'@'` — consists of exactly
7 digits.  (Named after the spec, to be compared against
`is_student_email`.) -/
def specLocalSevenDigits (e : String) : Bool :=
  let l := e.data.takeWhile fun c => c ≠ '@'
  l.length == 7 && l.all Char.isDigit

end UnifiedAuth

namespace UnifiedAuth

/-! ## Helper lemmas -/

theorem dropWhile_ne_nil_takeWhile_append {α} (p : α → Bool) (xs ys : List α)
    (h : xs.dropWhile p ≠ []) : (xs ++ ys).takeWhile p = xs.takeWhile p := by
  induction xs with
  | nil => simp [List.dropWhile] at h
  | cons a as ih =>
      by_cases hp : p a
      · simp only [List.dropWhile_cons, hp, if_true] at h
        simp [List.takeWhile_cons, hp, ih h]
      · simp [List.takeWhile_cons, hp]

theorem dropWhile_ne_nil_dropWhile_append {α} (p : α → Bool) (xs ys : List α)
    (h : xs.dropWhile p ≠ []) : (xs ++ ys).dropWhile p = xs.dropWhile p ++ ys := by
  induction xs with
  | nil => simp [List.dropWhile] at h
  | cons a as ih =>
      by_cases hp : p a
      · simp only [List.dropWhile_cons, hp, if_true] at h
        simp [List.dropWhile_cons, hp, ih h]
      · simp [List.dropWhile_cons, hp]

theorem matchEmailCoreChars_dropWhile_ne_nil {cs : List Char}
    (h : matchEmailCoreChars cs = true) : cs.dropWhile (fun c => c ≠ '@') ≠ [] := by
  unfold matchEmailCoreChars at h
  rcases hd : cs.dropWhile (fun c => c ≠ '@') with _ | ⟨a, dom⟩
  · rw [hd] at h; simp at h
  · simp [hd]

theorem matchDomainChars_ne_nil {dom : List Char}
    (h : matchDomainChars dom = true) : dom ≠ [] := by
  unfold matchDomainChars at h
  rcases List.any_eq_true.mp h with ⟨i, hi, _⟩
  intro hnil
  subst hnil
  simp at hi

theorem matchEmailCoreChars_domain_ne_nil {cs : List Char}
    (h : matchEmailCoreChars cs = true) :
    (cs.dropWhile (fun c => c ≠ '@')).drop 1 ≠ [] := by
  unfold matchEmailCoreChars at h
  rcases hd : cs.dropWhile (fun c => c ≠ '@') with _ | ⟨a, dom⟩
  · rw [hd] at h; simp at h
  · rw [hd] at h
    simp only [Bool.and_eq_true] at h
    have hdom : dom ≠ [] := matchDomainChars_ne_nil h.2
    simpa using hdom

theorem matchEmailCoreChars_local_all {cs : List Char}
    (h : matchEmailCoreChars cs = true) :
    (cs.takeWhile (fun c => c ≠ '@')).all isLocalChar = true := by
  unfold matchEmailCoreChars at h
  rcases hd : cs.dropWhile (fun c => c ≠ '@') with _ | ⟨a, dom⟩
  · rw [hd] at h; simp at h
  · rw [hd] at h
    simp only [Bool.and_eq_true] at h
    exact h.1.2

/-- A string whose characters all come from the local-part class does not end
in a newline. -/
theorem all_local_getLast_ne_newline {l : List Char}
    (h : l.all isLocalChar = true) : (l.getLast? == some '\n') = false := by
  rcases hl : l.getLast? with _ | c
  · rfl
  · obtain ⟨hne, hcx⟩ := List.mem_getLast?_eq_getLast (Option.mem_def.mpr hl)
    have hcm : c ∈ l := hcx ▸ List.getLast_mem hne
    have hloc := List.all_eq_true.mp h c hcm
    by_contra hb
    rw [Bool.not_eq_false] at hb
    have hcn : c = '\n' := by simpa using hb
    subst hcn
    exact absurd hloc (by decide)

/-- For a valid email the characters of the local part all come from the
local-part class (covering the trailing-newline quirk of `'$'`). -/
theorem is_valid_email_local_all {e : String}
    (h : is_valid_email e = true) :
    (e.data.takeWhile (fun c => c ≠ '@')).all isLocalChar = true := by
  unfold is_valid_email at h
  rcases Bool.or_eq_true_iff.mp h with hc | hc
  · exact matchEmailCoreChars_local_all hc
  · simp only [Bool.and_eq_true, beq_iff_eq] at hc
    obtain ⟨hlast, hcore⟩ := hc
    have hsplit : e.data = e.data.dropLast ++ ['\n'] := by
      conv_lhs => rw [← List.dropLast_append_getLast? '\n' (Option.mem_def.mpr hlast)]
    have hne : e.data.dropLast.dropWhile (fun c => c ≠ '@') ≠ [] :=
      matchEmailCoreChars_dropWhile_ne_nil hcore
    rw [hsplit, dropWhile_ne_nil_takeWhile_append _ _ _ hne]
    exact matchEmailCoreChars_local_all hcore

/-- For a valid email the part after the `'@'` is non-empty. -/
theorem is_valid_email_domain_ne_nil {e : String}
    (h : is_valid_email e = true) :
    (e.data.dropWhile (fun c => c ≠ '@')).drop 1 ≠ [] := by
  unfold is_valid_email at h
  rcases Bool.or_eq_true_iff.mp h with hc | hc
  · exact matchEmailCoreChars_domain_ne_nil hc
  · simp only [Bool.and_eq_true, beq_iff_eq] at hc
    obtain ⟨hlast, hcore⟩ := hc
    have hsplit : e.data = e.data.dropLast ++ ['\n'] := by
      conv_lhs => rw [← List.dropLast_append_getLast? '\n' (Option.mem_def.mpr hlast)]
    have hne : e.data.dropLast.dropWhile (fun c => c ≠ '@') ≠ [] :=
      matchEmailCoreChars_dropWhile_ne_nil hcore
    rw [hsplit, dropWhile_ne_nil_dropWhile_append _ _ _ hne]
    rcases hd : e.data.dropLast.dropWhile (fun c => c ≠ '@') with _ | ⟨a, dom⟩
    · exact absurd hd hne
    · simp

theorem is_valid_email_extract_domain_ne {e : String}
    (h : is_valid_email e = true) : extract_domain e ≠ "" := by
  unfold extract_domain
  rw [if_pos h]
  intro hem
  have hdata : (((e.data.dropWhile fun c => c ≠ '@').drop 1).map Char.toLower) = [] :=
    congrArg String.data hem
  have := is_valid_email_domain_ne_nil h
  simp only [List.map_eq_nil_iff] at hdata
  exact this hdata

end UnifiedAuth

namespace UnifiedAuth

/-! ## Claim C5: exact, case-insensitive domain matching -/

/-- C5: for every email `e` (a string accepted by the email shape check) and
every domain list `allowed`, `validate_domain e allowed` passes iff the
domain extracted from `e` case-insensitively equals some entry of `allowed`
exactly; in particular a subdomain of an allowed domain is rejected. -/
theorem validate_domain_exact_iff (email : String) (allowed : List String)
    (h : is_valid_email email = true) :
    ((validate_domain email allowed).1 = true ↔
      ∃ d ∈ allowed, strLower d = extract_domain email) := by
  have hne := is_valid_email_extract_domain_ne h
  simp only [validate_domain]
  rw [if_neg hne]
  by_cases hm : extract_domain email ∈ allowed.map strLower
  · rw [if_pos hm]
    simpa using List.mem_map.mp hm
  · rw [if_neg hm]
    constructor
    · intro hfalse; exact absurd hfalse (by simp)
    · rintro ⟨d, hd, hdl⟩
      exact absurd (List.mem_map.mpr ⟨d, hd, hdl⟩) hm

/-- Witness for C5 at the spec's own subdomain scenario:
`sub.i-seifu.jp` against `["i-seifu.jp"]` is rejected. -/
theorem validate_domain_exact_iff_witness :
    is_valid_email "user@sub.i-seifu.jp" = true ∧
    ((validate_domain "user@sub.i-seifu.jp" ["i-seifu.jp"]).1 = true ↔
      ∃ d ∈ ["i-seifu.jp"], strLower d = extract_domain "user@sub.i-seifu.jp") ∧
    (validate_domain "user@sub.i-seifu.jp" ["i-seifu.jp"]).1 = false :=
  ⟨by decide,
   validate_domain_exact_iff "user@sub.i-seifu.jp" ["i-seifu.jp"] (by decide),
   by decide⟩

/-! ## Claim C6: the student heuristic -/

/-- C6 counterexample: the claim "for every string `e`, `is_student_email e`
is true iff the local part of `e` consists of exactly 7 digits" fails at
`"1234567@abc"`: its local part is exactly 7 digits, but the function first
requires the whole address to pass the email shape check (`"abc"` has no
top-level domain), so it returns false. -/
theorem is_student_email_counterexample :
    ¬ (is_student_email "1234567@abc" = true ↔
        specLocalSevenDigits "1234567@abc" = true) := by
  decide

/-- C6 amended: for every string `e`, `is_student_email e` is true iff `e`
passes the email shape check AND its local part (the substring before the
first `'@'`) consists of exactly 7 digits. -/
theorem is_student_email_iff_valid_seven_digits (e : String) :
    is_student_email e = (is_valid_email e && specLocalSevenDigits e) := by
  unfold is_student_email
  by_cases hv : is_valid_email e = true
  · rw [if_pos hv, hv, Bool.true_and]
    have hall := is_valid_email_local_all hv
    have hnl := all_local_getLast_ne_newline hall
    unfold matchSevenDigits specLocalSevenDigits
    rw [hnl]
    simp
  · rw [if_neg hv]
    rw [Bool.not_eq_true] at hv
    rw [hv, Bool.false_and]

/-! ## Claim C2: unavailable org unit with configured org-unit policy -/

/-- C2: with a policy configuring `allowed_org_units` and the user's org unit
unavailable (`None`), the pipeline `validate_user_access` grants access — the
`if user_org_unit is not None` guard skips stage 5 entirely — although the
stage's own validator `validate_org_unit_membership` would deny exactly this
situation ("Unable to retrieve user's organizational unit").  This
contradicts the claim (and the inner validator's own handling), so the claim
marks a code bug rather than a property of the code. -/
theorem orgunit_unavailable_stage_skipped :
    validate_user_access "user@x.jp"
        { allowed_domains := ["x.jp"], allowed_org_units := ["/Staff"] } none none
      = .ok (true, "") ∧
    validate_org_unit_membership none [] ["/Staff"]
      = (false, some "Unable to retrieve user's organizational unit") :=
  ⟨by decide, by decide⟩

end UnifiedAuth

namespace UnifiedAuth

/-! ## Claim C10: a root-path allowed URI permits every path on its host -/

/-- C10: if some entry of the allowed-URI list parses with the same
(lowercased) scheme and authority as the redirect URI and has path `""` or
`"/"`, then `validate_redirect_uri` accepts the redirect URI whatever its
path is.  The statement quantifies over the parser, so it holds for `urlparse`
in particular. -/
theorem validate_redirect_uri_root_allows_any_path
    (parse : String → ParsedUrl) (redirect_uri : String)
    (allowed_uris : List String) (u : String)
    (hu : u ∈ allowed_uris)
    (hs : (parse u).scheme ≠ "") (hn : (parse u).netloc ≠ "")
    (hp : (parse u).path = "" ∨ (parse u).path = "/")
    (hrs : (parse redirect_uri).scheme ≠ "")
    (hrn : (parse redirect_uri).netloc ≠ "")
    (hbase : strLower (parse redirect_uri).scheme ++ "://" ++ strLower (parse redirect_uri).netloc
      = strLower (parse u).scheme ++ "://" ++ strLower (parse u).netloc) :
    validate_redirect_uri parse redirect_uri allowed_uris = true := by
  have hap : rstripSlash (parse u).path = "" := by
    rcases hp with h | h <;> rw [h] <;> decide
  unfold validate_redirect_uri
  rw [if_neg (by push_neg; exact ⟨hrs, hrn⟩)]
  apply List.any_eq_true.mpr
  refine ⟨u, hu, ?_⟩
  unfold entryAllows
  rw [if_neg (by push_neg; exact ⟨hs, hn⟩)]
  rw [if_neg (by simpa using hbase)]
  rw [hap]
  by_cases hrp : rstripSlash (parse redirect_uri).path = ""
  · rw [if_pos hrp]
  · rw [if_neg hrp]
    rw [if_neg (by simp)]
    rw [if_pos (Or.inl rfl)]

/-- Witness for C10: an allowed URI at the host root admits a redirect to a
deep path on the same host, under a concrete finite parser. -/
theorem validate_redirect_uri_root_allows_any_path_witness :
    validate_redirect_uri
      (fun s =>
        if s = "https://app.example.com/deep/page" then
          ⟨"https", "app.example.com", "/deep/page"⟩
        else if s = "https://app.example.com/" then
          ⟨"https", "app.example.com", "/"⟩
        else ⟨"", "", ""⟩)
      "https://app.example.com/deep/page"
      ["https://app.example.com/"] = true :=
  validate_redirect_uri_root_allows_any_path _ _ _
    "https://app.example.com/"
    (by decide) (by decide) (by decide) (by decide) (by decide) (by decide)
    (by decide)

/-! ## Claim C3: the access token's subject is the user's email -/

/-- C3: for all email, name, project id and optional role, the issued access
token carries the claim `sub` equal to the email. -/
theorem access_token_sub_is_email (email name project_id : String)
    (role : Option String) (now : Int) (key alg : String) :
    lookupClaim (create_access_token email name project_id role now key alg).payload "sub"
      = some (.s email) := by
  cases role <;>
    simp [create_access_token, jwt_encode, lookupClaim, List.find?]

/-! ## Claim C8: issue/verify round-trip of the legacy token issuer -/

/-- C8: verifying a token created by `create_token` (role carried via
`additional_claims`, as the callers do) before its expiry succeeds and the
returned claims carry the same email, name, project id and role. -/
theorem create_verify_roundtrip
    (email name project_id : String) (role : Option String)
    (days default_days now nowV : Int) (key alg : String)
    (hd : days ≠ 0)
    (hv : nowV < now + days * 86400) :
    ∃ p, verify_token
        (create_token email name project_id (some days)
          (role.map fun r => [("role", JVal.s r)]) now default_days key alg)
        key alg nowV = .ok p ∧
      lookupClaim p "email" = some (.s email) ∧
      lookupClaim p "name" = some (.s name) ∧
      lookupClaim p "project_id" = some (.s project_id) ∧
      lookupClaim p "role" = role.map JVal.s := by
  have hexp : ¬ (now + days * 86400 ≤ nowV) := by omega
  refine ⟨(create_token email name project_id (some days)
      (role.map fun r => [("role", JVal.s r)]) now default_days key alg).payload,
    ?_, ?_, ?_, ?_, ?_⟩ <;>
    cases role <;>
      simp [verify_token, create_token, jwt_decode, jwt_encode, dictUpdate,
        lookupClaim, List.find?, hd, hexp]

/-- Witness for C8 at concrete values. -/
theorem create_verify_roundtrip_witness :
    (30 : Int) ≠ 0 ∧ (1000 : Int) < 0 + 30 * 86400 ∧
    ∃ p, verify_token
        (create_token "u@x.jp" "User X" "proj" (some 30)
          ((some "admin").map fun r => [("role", JVal.s r)]) 0 30 "k" "HS256")
        "k" "HS256" 1000 = .ok p ∧
      lookupClaim p "email" = some (.s "u@x.jp") ∧
      lookupClaim p "name" = some (.s "User X") ∧
      lookupClaim p "project_id" = some (.s "proj") ∧
      lookupClaim p "role" = (some "admin").map JVal.s :=
  ⟨by decide, by decide,
   create_verify_roundtrip "u@x.jp" "User X" "proj" (some "admin")
     30 30 0 1000 "k" "HS256" (by decide) (by decide)⟩

end UnifiedAuth

namespace UnifiedAuth

/-! ## Claim C1: refresh rotation and reuse detection -/

/-- C1: presenting a refresh token (valid at redemption time, no project-id
override in the request): (a) the endpoint fails with `REFRESH_TOKEN_REUSED`
iff the used-token store reports its `jti` as used; (b) the first redemption
succeeds, returns a new refresh token whose `jti` is the freshly generated
one — distinct from the redeemed `jti` — and marks the redeemed `jti` used;
(c) any later redemption of the same `jti` (any store state reporting it
used, any time before expiry) fails with `REFRESH_TOKEN_REUSED`. -/
theorem refresh_rotation
    (email proj jti0 freshJti key alg : String)
    (days rdays now0 now : Int)
    (st : TokenStoreState) (ip : Option String)
    (hexp : now < now0 + days * 86400)
    (hfresh : freshJti ≠ jti0) :
    ((refresh_token_endpoint
        ⟨create_refresh_token email proj days jti0 now0 key alg, none⟩
        st now key alg freshJti rdays ip).1 = .error .refreshTokenReused
      ↔ is_token_used st (some jti0) = true) ∧
    (is_token_used st (some jti0) = false →
      ∃ res, (refresh_token_endpoint
          ⟨create_refresh_token email proj days jti0 now0 key alg, none⟩
          st now key alg freshJti rdays ip).1 = .ok res ∧
        lookupClaim res.refresh_token.payload "jti" = some (.s freshJti) ∧
        lookupClaim res.refresh_token.payload "jti" ≠ some (.s jti0) ∧
        is_token_used (refresh_token_endpoint
          ⟨create_refresh_token email proj days jti0 now0 key alg, none⟩
          st now key alg freshJti rdays ip).2 (some jti0) = true) ∧
    (∀ (st2 : TokenStoreState) (now2 rdays2 : Int) (fresh2 : String)
        (ip2 : Option String),
      now2 < now0 + days * 86400 →
      is_token_used st2 (some jti0) = true →
      (refresh_token_endpoint
          ⟨create_refresh_token email proj days jti0 now0 key alg, none⟩
          st2 now2 key alg fresh2 rdays2 ip2).1 = .error .refreshTokenReused) := by
  have hverify : ∀ t : Int, t < now0 + days * 86400 →
      verify_refresh_token (create_refresh_token email proj days jti0 now0 key alg)
          key alg t
        = .ok [("sub", .s email), ("email", .s email), ("project_id", .s proj),
               ("jti", .s jti0), ("iat", .n now0),
               ("exp", .n (now0 + days * 86400))] := by
    intro t ht
    have hle : ¬ (now0 + days * 86400 ≤ t) := by omega
    simp [verify_refresh_token, create_refresh_token, jwt_decode, jwt_encode,
      lookupClaim, List.find?, hle]
  refine ⟨?_, ?_, ?_⟩
  · by_cases hused : is_token_used st (some jti0) = true
    · simp [refresh_token_endpoint, hverify now hexp, lookupClaim, List.find?,
        JVal.str?, hused]
    · rw [Bool.not_eq_true] at hused
      simp [refresh_token_endpoint, hverify now hexp, lookupClaim, List.find?,
        JVal.str?, hused]
  · intro hused
    refine ⟨⟨create_access_token email "" proj none now key alg,
        create_refresh_token email proj rdays freshJti now key alg,
        "Bearer", 3600⟩, ?_, ?_, ?_, ?_⟩
    · simp [refresh_token_endpoint, hverify now hexp, lookupClaim, List.find?,
        JVal.str?, hused, mark_token_as_used]
    · simp [create_refresh_token, jwt_encode, lookupClaim, List.find?]
    · simp [create_refresh_token, jwt_encode, lookupClaim, List.find?, hfresh]
    · have hused2 : (st.any fun kv => kv.1 == some jti0) = false := by
        simpa [is_token_used] using hused
      simp [refresh_token_endpoint, hverify now hexp, lookupClaim, List.find?,
        JVal.str?, mark_token_as_used, is_token_used, hused2]
  · intro st2 now2 rdays2 fresh2 ip2 hexp2 hused2
    simp [refresh_token_endpoint, hverify now2 hexp2, lookupClaim, List.find?,
      JVal.str?, hused2]

/-- Witness for C1 at concrete values: a fresh rotation from the empty store. -/
theorem refresh_rotation_witness :
    (100 : Int) < 0 + 30 * 86400 ∧ "j1" ≠ "j0" ∧
    (((refresh_token_endpoint
        ⟨create_refresh_token "u@x.jp" "p" 30 "j0" 0 "k" "HS256", none⟩
        [] 100 "k" "HS256" "j1" 30 none).1 = .error .refreshTokenReused
      ↔ is_token_used [] (some "j0") = true) ∧
    (is_token_used [] (some "j0") = false →
      ∃ res, (refresh_token_endpoint
          ⟨create_refresh_token "u@x.jp" "p" 30 "j0" 0 "k" "HS256", none⟩
          [] 100 "k" "HS256" "j1" 30 none).1 = .ok res ∧
        lookupClaim res.refresh_token.payload "jti" = some (.s "j1") ∧
        lookupClaim res.refresh_token.payload "jti" ≠ some (.s "j0") ∧
        is_token_used (refresh_token_endpoint
          ⟨create_refresh_token "u@x.jp" "p" 30 "j0" 0 "k" "HS256", none⟩
          [] 100 "k" "HS256" "j1" 30 none).2 (some "j0") = true) ∧
    (∀ (st2 : TokenStoreState) (now2 rdays2 : Int) (fresh2 : String)
        (ip2 : Option String),
      now2 < 0 + 30 * 86400 →
      is_token_used st2 (some "j0") = true →
      (refresh_token_endpoint
          ⟨create_refresh_token "u@x.jp" "p" 30 "j0" 0 "k" "HS256", none⟩
          st2 now2 "k" "HS256" fresh2 rdays2 ip2).1 = .error .refreshTokenReused)) :=
  ⟨by decide, by decide,
   refresh_rotation "u@x.jp" "p" "j0" "j1" "k" "HS256" 30 30 0 100 [] none
     (by decide) (by decide)⟩

end UnifiedAuth

namespace UnifiedAuth

/-! ## Claim C4: classification of group-membership failures -/

theorem listPrefixEq_append (n xs ys : List Char) (h : listPrefixEq n xs = true) :
    listPrefixEq n (xs ++ ys) = true := by
  induction n generalizing xs with
  | nil => rfl
  | cons a as ih =>
      cases xs with
      | nil => simp [listPrefixEq] at h
      | cons b bs =>
          simp only [listPrefixEq, Bool.and_eq_true, decide_eq_true_eq] at h
          simp only [List.cons_append, listPrefixEq, Bool.and_eq_true,
            decide_eq_true_eq]
          exact ⟨h.1, ih bs h.2⟩

/-- An occurrence of a substring in `a` survives appending `b`. -/
theorem strContainsSub_append_left (a b n : String)
    (h : strContainsSub a n = true) : strContainsSub (a ++ b) n = true := by
  unfold strContainsSub at h ⊢
  rcases List.any_eq_true.mp h with ⟨i, hi, hpre⟩
  have hia : i < a.data.length + 1 := List.mem_range.mp hi
  apply List.any_eq_true.mpr
  refine ⟨i, List.mem_range.mpr ?_, ?_⟩
  · rw [String.data_append, List.length_append]
    omega
  · rw [String.data_append, List.drop_append_of_le_length (by omega)]
    exact listPrefixEq_append _ _ _ hpre

/-- C4 counterexample: with `allowed_groups = ["required-staff@x.jp"]` and no
required groups, a user in none of the allowed groups is rejected, but the
classification — a `'required' in error_msg` substring test — raises
`GroupMembershipRequired` (with the empty required list) instead of
`NoMatchingGroup`, because the failure message embeds the group name
`"required-staff@x.jp"`.  The taxonomy member therefore depends on the text
content of the group names, contrary to the claim. -/
theorem group_misclassification_counterexample :
    validate_user_access "user@x.jp"
        { allowed_domains := ["x.jp"], allowed_groups := ["required-staff@x.jp"] }
        (some ["other@x.jp"]) none
      = .error (.groupMembershipRequired []) ∧
    validate_user_access "user@x.jp"
        { allowed_domains := ["x.jp"], allowed_groups := ["required-staff@x.jp"] }
        (some ["other@x.jp"]) none
      ≠ .error (.noMatchingGroup ["required-staff@x.jp"]) :=
  ⟨by decide, by decide⟩

/-- C4 amended: with the first three stages passing and groups supplied,
(1) missing at least one of a non-empty `required_groups` list always fails
with exactly `GroupMembershipRequired` (its message always contains
`'required'`), and (2) intersecting none of a non-empty `allowed_groups`
list fails with exactly `NoMatchingGroup` PROVIDED the constructed failure
message (which embeds the allowed group names) does not contain the
substring `'required'` — the classification inspects the message text, so it
can depend on group-name content. -/
theorem group_failure_classification
    (email : String) (cfg : ProjectConfig) (gs : List String) (uo : Option String)
    (hdom : (validate_domain email cfg.allowed_domains).1 = true)
    (hstu : (validate_student_access email cfg.student_allowed).1 = true)
    (hadm : (validate_admin_access email cfg.admin_emails).1 = true) :
    ((cfg.required_groups.map strLower).filter
        (fun g => !(gs.map strLower).contains g) ≠ [] →
      validate_user_access email cfg (some gs) uo
        = .error (.groupMembershipRequired cfg.required_groups)) ∧
    ((cfg.required_groups.map strLower).filter
        (fun g => !(gs.map strLower).contains g) = [] →
      cfg.allowed_groups ≠ [] →
      (gs.map strLower).any (fun g => (cfg.allowed_groups.map strLower).contains g)
        = false →
      strContainsSub ("User is not a member of any allowed groups: " ++
        String.intercalate ", " cfg.allowed_groups) "required" = false →
      validate_user_access email cfg (some gs) uo
        = .error (.noMatchingGroup cfg.allowed_groups)) := by
  constructor
  · intro hmiss
    have hreq : cfg.required_groups ≠ [] := by
      intro h
      rw [h] at hmiss
      simp at hmiss
    have hgm : validate_group_membership gs cfg.required_groups cfg.allowed_groups
        = (false, some ("User is not a member of required groups: " ++
            String.intercalate ", " ((cfg.required_groups.map strLower).filter
              (fun g => !(gs.map strLower).contains g)))) := by
      unfold validate_group_membership
      rw [if_pos ⟨hreq, hmiss⟩]
    have hcont : strContainsSub ("User is not a member of required groups: " ++
        String.intercalate ", " ((cfg.required_groups.map strLower).filter
          (fun g => !(gs.map strLower).contains g))) "required" = true :=
      strContainsSub_append_left _ _ _ (by decide)
    have hgs : groupStage cfg (some gs)
        = .error (.groupMembershipRequired cfg.required_groups) := by
      simp only [groupStage]
      rw [hgm]
      simp only [Option.getD_some]
      rw [if_pos (show (!false) = true from rfl), if_pos hcont]
    unfold validate_user_access
    rw [if_neg (by rw [hdom]; simp), if_neg (by rw [hstu]; simp),
      if_neg (by rw [hadm]; simp), hgs]
    rfl
  · intro hmiss hallow hnomatch hnotreq
    have hgm : validate_group_membership gs cfg.required_groups cfg.allowed_groups
        = (false, some ("User is not a member of any allowed groups: " ++
            String.intercalate ", " cfg.allowed_groups)) := by
      unfold validate_group_membership
      rw [if_neg (fun h => h.2 hmiss), if_pos ⟨hallow, by rw [hnomatch]; rfl⟩]
    have hgs : groupStage cfg (some gs)
        = .error (.noMatchingGroup cfg.allowed_groups) := by
      simp only [groupStage]
      rw [hgm]
      simp only [Option.getD_some]
      rw [if_pos (show (!false) = true from rfl), if_neg (by rw [hnotreq]; simp)]
    unfold validate_user_access
    rw [if_neg (by rw [hdom]; simp), if_neg (by rw [hstu]; simp),
      if_neg (by rw [hadm]; simp), hgs]
    rfl

/-- Witness for C4: both classification branches at concrete inputs. -/
theorem group_failure_classification_witness :
    (validate_domain "user@x.jp" ["x.jp"]).1 = true ∧
    ((["team@x.jp"].map strLower).filter
        (fun g => !(["other@x.jp"].map strLower).contains g) ≠ [] →
      validate_user_access "user@x.jp"
          { allowed_domains := ["x.jp"], required_groups := ["team@x.jp"] }
          (some ["other@x.jp"]) none
        = .error (.groupMembershipRequired ["team@x.jp"])) ∧
    ((([] : List String).map strLower).filter
        (fun g => !(["other@x.jp"].map strLower).contains g) = [] →
      (["staff@x.jp"] : List String) ≠ [] →
      (["other@x.jp"].map strLower).any
          (fun g => (["staff@x.jp"].map strLower).contains g) = false →
      strContainsSub ("User is not a member of any allowed groups: " ++
        String.intercalate ", " ["staff@x.jp"]) "required" = false →
      validate_user_access "user@x.jp"
          { allowed_domains := ["x.jp"], allowed_groups := ["staff@x.jp"] }
          (some ["other@x.jp"]) none
        = .error (.noMatchingGroup ["staff@x.jp"])) := by
  refine ⟨by decide, ?_, ?_⟩
  · exact (group_failure_classification "user@x.jp"
      { allowed_domains := ["x.jp"], required_groups := ["team@x.jp"] }
      ["other@x.jp"] none (by decide) (by decide) (by decide)).1
  · exact (group_failure_classification "user@x.jp"
      { allowed_domains := ["x.jp"], allowed_groups := ["staff@x.jp"] }
      ["other@x.jp"] none (by decide) (by decide) (by decide)).2

end UnifiedAuth

namespace UnifiedAuth

/-! ## Claim C9: the HMAC request-signing scheme -/

theorem insertPair_perm (kv : String × JsonVal) (l : JsonBody) :
    List.Perm (insertPair kv l) (kv :: l) := by
  induction l with
  | nil => simp [insertPair]
  | cons x xs ih =>
      by_cases h : x.1 < kv.1
      · simp only [insertPair, if_pos h]
        exact (ih.cons x).trans (List.Perm.swap kv x xs)
      · simp only [insertPair]
        rw [if_neg h]

theorem sortBodyKeys_perm (l : JsonBody) : List.Perm (sortBodyKeys l) l := by
  induction l with
  | nil => simp [sortBodyKeys]
  | cons x xs ih =>
      exact (insertPair_perm x (sortBodyKeys xs)).trans (ih.cons x)

theorem insertPair_sorted (kv : String × JsonVal) (l : JsonBody)
    (h : l.Pairwise fun a b => a.1 ≤ b.1) :
    (insertPair kv l).Pairwise fun a b => a.1 ≤ b.1 := by
  induction l with
  | nil => simp [insertPair]
  | cons x xs ih =>
      rcases List.pairwise_cons.mp h with ⟨hx, hxs⟩
      by_cases hlt : x.1 < kv.1
      · simp only [insertPair, if_pos hlt]
        refine List.pairwise_cons.mpr ⟨?_, ih hxs⟩
        intro y hy
        rcases List.mem_cons.mp ((insertPair_perm kv xs).subset hy) with rfl | hyx
        · exact le_of_lt hlt
        · exact hx y hyx
      · simp only [insertPair, if_neg hlt]
        have hkx : kv.1 ≤ x.1 := le_of_not_lt hlt
        refine List.pairwise_cons.mpr ⟨?_, h⟩
        intro y hy
        rcases List.mem_cons.mp hy with rfl | hyx
        · exact hkx
        · exact le_trans hkx (hx y hyx)

theorem sortBodyKeys_sorted (l : JsonBody) :
    (sortBodyKeys l).Pairwise fun a b => a.1 ≤ b.1 := by
  induction l with
  | nil => simp [sortBodyKeys]
  | cons x xs ih => exact insertPair_sorted x (sortBodyKeys xs) ih

theorem sortBodyKeys_strict (l : JsonBody) (h : (l.map Prod.fst).Nodup) :
    (sortBodyKeys l).Pairwise fun a b => a.1 < b.1 := by
  have hperm := sortBodyKeys_perm l
  have hnd : ((sortBodyKeys l).map Prod.fst).Nodup :=
    ((hperm.map Prod.fst).symm).nodup h
  have hne := (List.pairwise_map).1 hnd
  exact List.Pairwise.imp (fun hab => lt_of_le_of_ne hab.1 hab.2)
    ((sortBodyKeys_sorted l).and hne)

theorem bodyLookup_mem_iff : ∀ (l : JsonBody), (l.map Prod.fst).Nodup →
    ∀ (k : String) (v : JsonVal), ((k, v) ∈ l ↔ bodyLookup l k = some v) := by
  intro l
  induction l with
  | nil =>
      intro _ k v
      simp [bodyLookup]
  | cons x xs ih =>
      obtain ⟨k0, v0⟩ := x
      intro hnd k v
      have hnd2 : (k0 :: xs.map Prod.fst).Nodup := by simpa using hnd
      rcases List.nodup_cons.mp hnd2 with ⟨hkx, hnds⟩
      by_cases hk : k0 = k
      · subst hk
        have hrhs : bodyLookup ((k0, v0) :: xs) k0 = some v0 := by
          simp [bodyLookup, List.find?_cons]
        rw [hrhs]
        constructor
        · intro hmem
          rcases List.mem_cons.mp hmem with heq | hmem2
          · have hv : v = v0 := by simpa using heq
            rw [hv]
          · exact absurd (List.mem_map.mpr ⟨(k0, v), hmem2, rfl⟩) hkx
        · intro hlook
          have hv : v0 = v := by simpa using hlook
          rw [← hv]
          exact List.mem_cons_self _ _
      · have hbeq : (k0 == k) = false := by simpa using hk
        have hrhs : bodyLookup ((k0, v0) :: xs) k = bodyLookup xs k := by
          simp [bodyLookup, List.find?_cons, hbeq]
        rw [hrhs, ← ih hnds k v]
        constructor
        · intro hmem
          rcases List.mem_cons.mp hmem with heq | hmem2
          · have : k = k0 := by simpa using congrArg Prod.fst heq
            exact absurd this.symm hk
          · exact hmem2
        · intro hmem
          exact List.mem_cons_of_mem _ hmem

theorem bodyLookup_ext_perm {l1 l2 : JsonBody} (h1 : (l1.map Prod.fst).Nodup)
    (h2 : (l2.map Prod.fst).Nodup)
    (h : ∀ k, bodyLookup l1 k = bodyLookup l2 k) : List.Perm l1 l2 := by
  apply (List.perm_ext_iff_of_nodup (List.Nodup.of_map _ h1) (List.Nodup.of_map _ h2)).2
  rintro ⟨k, v⟩
  rw [bodyLookup_mem_iff l1 h1 k v, bodyLookup_mem_iff l2 h2 k v, h k]

/-- Bodies equal as key-value maps (no duplicate keys, identical lookups)
have the same canonical key-sorted form. -/
theorem sortBodyKeys_canonical {l1 l2 : JsonBody} (h1 : (l1.map Prod.fst).Nodup)
    (h2 : (l2.map Prod.fst).Nodup)
    (h : ∀ k, bodyLookup l1 k = bodyLookup l2 k) :
    sortBodyKeys l1 = sortBodyKeys l2 := by
  haveI : IsAntisymm (String × JsonVal) (fun a b => a.1 < b.1) :=
    ⟨fun a b hab hba => absurd (lt_trans hab hba) (lt_irrefl _)⟩
  exact List.eq_of_perm_of_sorted
    ((sortBodyKeys_perm l1).trans
      ((bodyLookup_ext_perm h1 h2 h).trans (sortBodyKeys_perm l2).symm))
    (sortBodyKeys_strict l1 h1) (sortBodyKeys_strict l2 h2)

/-- C9: the request signature is HMAC-SHA256 by the client secret over
`"timestamp\nMETHOD\npath\nbody_hash"` with the method uppercased and the
body hash the SHA-256 hex digest of the key-sorted compact JSON body; two
bodies equal as key-value maps sign identically; and the signed headers are
`X-Client-ID`, `X-Signature`, `X-Timestamp`. -/
theorem hmac_signature_scheme (sha256_hex : String → String)
    (hmac_sha256_hex : String → String → String)
    (client_id client_secret timestamp method path : String) (body : JsonBody) :
    (generate_signature sha256_hex hmac_sha256_hex client_secret timestamp
        method path body
      = hmac_sha256_hex client_secret
          (timestamp ++ "\n" ++ strUpper method ++ "\n" ++ path ++ "\n" ++
            sha256_hex (json_dumps_sorted body))) ∧
    (∀ body2 : JsonBody,
      (body.map Prod.fst).Nodup → (body2.map Prod.fst).Nodup →
      (∀ k, bodyLookup body k = bodyLookup body2 k) →
      generate_signature sha256_hex hmac_sha256_hex client_secret timestamp
          method path body
        = generate_signature sha256_hex hmac_sha256_hex client_secret timestamp
            method path body2) ∧
    (headerLookup (create_signed_headers sha256_hex hmac_sha256_hex client_id
        client_secret timestamp method path body) "X-Client-ID" = some client_id) ∧
    (headerLookup (create_signed_headers sha256_hex hmac_sha256_hex client_id
        client_secret timestamp method path body) "X-Signature"
      = some (generate_signature sha256_hex hmac_sha256_hex client_secret
          timestamp method path body)) ∧
    (headerLookup (create_signed_headers sha256_hex hmac_sha256_hex client_id
        client_secret timestamp method path body) "X-Timestamp" = some timestamp) := by
  refine ⟨rfl, ?_, ?_, ?_, ?_⟩
  · intro body2 h1 h2 h
    unfold generate_signature json_dumps_sorted
    rw [sortBodyKeys_canonical h1 h2 h]
  · simp [create_signed_headers, headerLookup, List.find?]
  · simp [create_signed_headers, headerLookup, List.find?]
  · simp [create_signed_headers, headerLookup, List.find?]

/-- Witness for C9: two orderings of the same two-entry body produce the same
signature under concrete stand-ins for the hash primitives. -/
theorem hmac_signature_scheme_witness :
    (([("b", JsonVal.jn 1), ("a", JsonVal.js "x")].map Prod.fst).Nodup ∧
     ([("a", JsonVal.js "x"), ("b", JsonVal.jn 1)].map Prod.fst).Nodup) ∧
    generate_signature (fun s => s) (fun k m => k ++ "|" ++ m)
        "secret" "123" "post" "/api" [("b", JsonVal.jn 1), ("a", JsonVal.js "x")]
      = generate_signature (fun s => s) (fun k m => k ++ "|" ++ m)
          "secret" "123" "post" "/api" [("a", JsonVal.js "x"), ("b", JsonVal.jn 1)] := by
  refine ⟨⟨by decide, by decide⟩, ?_⟩
  exact (hmac_signature_scheme (fun s => s) (fun k m => k ++ "|" ++ m)
      "cid" "secret" "123" "post" "/api"
      [("b", JsonVal.jn 1), ("a", JsonVal.js "x")]).2.1
    [("a", JsonVal.js "x"), ("b", JsonVal.jn 1)]
    (by decide) (by decide)
    (by
      intro k
      by_cases ha : "a" = k
      · subst ha; decide
      · by_cases hb : "b" = k
        · subst hb; decide
        · have ha2 : ("a" == k) = false := by simpa using ha
          have hb2 : ("b" == k) = false := by simpa using hb
          simp [bodyLookup, List.find?_cons, ha2, hb2])

end UnifiedAuth

namespace UnifiedAuth

/-! ## Claim C7: role resolution -/

theorem insertRule_perm (r : RoleRule) (l : List RoleRule) :
    List.Perm (insertRule r l) (r :: l) := by
  induction l with
  | nil => simp [insertRule]
  | cons x xs ih =>
      by_cases h : sortKey x < sortKey r
      · simp only [insertRule, if_pos h]
        exact (ih.cons x).trans (List.Perm.swap r x xs)
      · simp only [insertRule]
        rw [if_neg h]

theorem insertRule_sorted (r : RoleRule) (l : List RoleRule)
    (h : l.Pairwise fun a b => sortKey a ≤ sortKey b) :
    (insertRule r l).Pairwise fun a b => sortKey a ≤ sortKey b := by
  induction l with
  | nil => simp [insertRule]
  | cons x xs ih =>
      rcases List.pairwise_cons.mp h with ⟨hx, hxs⟩
      by_cases hlt : sortKey x < sortKey r
      · simp only [insertRule, if_pos hlt]
        refine List.pairwise_cons.mpr ⟨?_, ih hxs⟩
        intro y hy
        rcases List.mem_cons.mp ((insertRule_perm r xs).subset hy) with rfl | hyx
        · exact le_of_lt hlt
        · exact hx y hyx
      · simp only [insertRule]
        rw [if_neg hlt]
        have hrx : sortKey r ≤ sortKey x := le_of_not_lt hlt
        refine List.pairwise_cons.mpr ⟨?_, h⟩
        intro y hy
        rcases List.mem_cons.mp hy with rfl | hyx
        · exact hrx
        · exact le_trans hrx (hx y hyx)

theorem sortRules_sorted (rules : List RoleRule) :
    (sortRules rules).Pairwise fun a b => sortKey a ≤ sortKey b := by
  induction rules with
  | nil => simp [sortRules]
  | cons x xs ih => exact insertRule_sorted x (sortRules xs) ih

theorem insertRule_filter (r : RoleRule) (l : List RoleRule) (k : Int) :
    (insertRule r l).filter (fun x => sortKey x == k)
      = if sortKey r = k then r :: l.filter (fun x => sortKey x == k)
        else l.filter (fun x => sortKey x == k) := by
  induction l with
  | nil =>
      by_cases hk : sortKey r = k <;>
        simp [insertRule, List.filter_cons, hk]
  | cons x xs ih =>
      by_cases hlt : sortKey x < sortKey r
      · simp only [insertRule, if_pos hlt]
        by_cases hxk : sortKey x = k
        · have hrk : ¬ sortKey r = k := by
            intro h
            rw [h, ← hxk] at hlt
            exact absurd hlt (lt_irrefl _)
          simp [List.filter_cons, hxk, hrk, ih]
        · simp [List.filter_cons, hxk, ih]
      · simp only [insertRule]
        rw [if_neg hlt]
        by_cases hrk : sortKey r = k <;> by_cases hxk : sortKey x = k <;>
          simp [List.filter_cons, hrk, hxk]

/-- Stability: in the sorted list the rules of each priority appear in their
original relative order. -/
theorem sortRules_stable (rules : List RoleRule) (k : Int) :
    (sortRules rules).filter (fun r => sortKey r == k)
      = rules.filter (fun r => sortKey r == k) := by
  induction rules with
  | nil => rfl
  | cons x xs ih =>
      have : sortRules (x :: xs) = insertRule x (sortRules xs) := rfl
      rw [this, insertRule_filter]
      by_cases hxk : sortKey x = k
      · rw [if_pos hxk, ih]
        simp [List.filter_cons, hxk]
      · rw [if_neg hxk, ih]
        simp [List.filter_cons, hxk]

theorem resolveLoop_eq_find (reM : String → String → Option Bool) (email : String)
    (gs : Option (List String)) (l : List RoleRule) :
    resolveLoop reM email gs l = (l.find? (ruleFires reM email gs)).bind RoleRule.role := by
  induction l with
  | nil => rfl
  | cons r rest ih =>
      by_cases h : ruleFires reM email gs r = true <;>
        simp [resolveLoop, List.find?_cons, h, ih]

/-- C7: role resolution sorts the rules ascending by priority with a stable
sort and returns the role of the first rule that fires; `default` always
matches; `group_membership` never matches with absent groups and otherwise
matches iff the (non-empty) group email is case-insensitively among the
user's groups; `email_pattern` consults the anchored start-of-string matcher
and treats an invalid pattern (`none`) as non-matching; `email_list` matches
by case-insensitive equality; and a resolution without any match leaves the
role absent, in which case the issued access token carries no `role` claim. -/
theorem role_resolution_spec (reMatchStart : String → String → Option Bool)
    (email : String) (user_groups : Option (List String)) (rules : List RoleRule) :
    ((sortRules rules).Pairwise fun a b => sortKey a ≤ sortKey b) ∧
    (∀ k : Int, (sortRules rules).filter (fun r => sortKey r == k)
        = rules.filter (fun r => sortKey r == k)) ∧
    (resolve_role reMatchStart email user_groups rules
        = ((sortRules rules).find? (ruleFires reMatchStart email user_groups)).bind
            RoleRule.role) ∧
    (∀ r : RoleRule, r.condition_type = some "default" →
      ruleMatches reMatchStart email user_groups r = true) ∧
    (∀ r : RoleRule, r.condition_type = some "group_membership" →
      (user_groups = none → ruleMatches reMatchStart email user_groups r = false) ∧
      (∀ g gs, r.group_email = some g → g ≠ "" → user_groups = some gs →
        ruleMatches reMatchStart email user_groups r
          = (gs.map strLower).contains (strLower g))) ∧
    (∀ (r : RoleRule) (p : String), r.condition_type = some "email_pattern" →
      r.email_pattern = some p → p ≠ "" →
      ruleMatches reMatchStart email user_groups r
        = (reMatchStart p email).getD false) ∧
    (∀ r : RoleRule, r.condition_type = some "email_list" →
      ruleMatches reMatchStart email user_groups r
        = (r.email_list.map strLower).contains (strLower email)) ∧
    (∀ (name project_id : String) (now : Int) (key alg : String),
      resolve_role reMatchStart email user_groups rules = none →
      lookupClaim (create_access_token email name project_id
          (resolve_role reMatchStart email user_groups rules) now key alg).payload
        "role" = none) := by
  refine ⟨sortRules_sorted rules, sortRules_stable rules, ?_, ?_, ?_, ?_, ?_, ?_⟩
  · exact resolveLoop_eq_find reMatchStart email user_groups (sortRules rules)
  · intro r h
    simp [ruleMatches, h]
  · intro r h
    constructor
    · intro hg
      cases hge : r.group_email <;> simp [ruleMatches, h, hg, hge]
    · intro g gs hge hgne hgs
      have hgb : (g == "") = false := by simpa using hgne
      cases gs with
      | nil => simp [ruleMatches, h, hge, hgs, hgb]
      | cons a as => simp [ruleMatches, h, hge, hgs, hgb]
  · intro r p h hp hpne
    have hpb : (p == "") = false := by simpa using hpne
    simp [ruleMatches, h, hp, hpb]
  · intro r h
    simp [ruleMatches, h]
  · intro name project_id now key alg hnone
    rw [hnone]
    simp [create_access_token, jwt_encode, lookupClaim, List.find?]

end UnifiedAuth

namespace UnifiedAuth

/-- Witness for C7 at the spec's own scenario: a `group_membership` rule of
priority 1 and a `default` rule of priority 4, with the user in the office
group; plus a no-match configuration that issues a token without a `role`
claim. -/
theorem role_resolution_spec_witness :
    (resolve_role (fun _ _ => none) "yamada@i-seifu.jp" (some ["office@i-seifu.jp"])
        [⟨some 1, some "group_membership", some "office", some "office@i-seifu.jp", none, []⟩,
         ⟨some 4, some "default", some "student", none, none, []⟩]
      = (((sortRules
            [⟨some 1, some "group_membership", some "office", some "office@i-seifu.jp", none, []⟩,
             ⟨some 4, some "default", some "student", none, none, []⟩]).find?
              (ruleFires (fun _ _ => none) "yamada@i-seifu.jp"
                (some ["office@i-seifu.jp"]))).bind RoleRule.role)) ∧
    (ruleMatches (fun _ _ => none) "yamada@i-seifu.jp" (some ["office@i-seifu.jp"])
        ⟨some 1, some "group_membership", some "office", some "office@i-seifu.jp", none, []⟩
      = ((["office@i-seifu.jp"].map strLower).contains (strLower "office@i-seifu.jp"))) ∧
    (resolve_role (fun _ _ => none) "yamada@i-seifu.jp" (some ["office@i-seifu.jp"])
        [⟨some 1, some "group_membership", some "office", some "office@i-seifu.jp", none, []⟩,
         ⟨some 4, some "default", some "student", none, none, []⟩]
      = some "office") ∧
    (lookupClaim (create_access_token "other@x.jp" "n" "p"
        (resolve_role (fun _ _ => none) "other@x.jp" none
          [⟨some 1, some "group_membership", some "office", some "office@i-seifu.jp", none, []⟩])
        0 "k" "HS256").payload "role" = none) := by
  refine ⟨(role_resolution_spec (fun _ _ => none) "yamada@i-seifu.jp"
      (some ["office@i-seifu.jp"])
      [⟨some 1, some "group_membership", some "office", some "office@i-seifu.jp", none, []⟩,
       ⟨some 4, some "default", some "student", none, none, []⟩]).2.2.1, ?_, by decide, ?_⟩
  · exact ((role_resolution_spec (fun _ _ => none) "yamada@i-seifu.jp"
        (some ["office@i-seifu.jp"])
        [⟨some 1, some "group_membership", some "office", some "office@i-seifu.jp", none, []⟩,
         ⟨some 4, some "default", some "student", none, none, []⟩]).2.2.2.2.1
        ⟨some 1, some "group_membership", some "office", some "office@i-seifu.jp", none, []⟩
        rfl).2 "office@i-seifu.jp" ["office@i-seifu.jp"] rfl (by decide) rfl
  · exact (role_resolution_spec (fun _ _ => none) "other@x.jp" none
        [⟨some 1, some "group_membership", some "office", some "office@i-seifu.jp", none, []⟩]).2.2.2.2.2.2.2
      "n" "p" 0 "k" "HS256" (by decide)

end UnifiedAuth
